import Mathlib

set_option maxRecDepth 4000

/-!
Shallow embedding of the interactive annotation core of the
sam-annotator frontend: the Zustand session store (useStore.ts), the
canvas gesture handlers, the viewport math and the polygon boolean
editing (the CanvasArea components), translated function by function
from the TypeScript source.  JavaScript numbers are modelled as
rationals; the JSON deep copy of plain data is the identity on values.
-/

namespace SamAnnotator

/-- A 2-D point (source type Point). -/
structure Point where
  x : ℚ
  y : ℚ
  deriving DecidableEq, Repr

/-- Axis-aligned box in image space (source type BoundingBox). -/
structure BoundingBox where
  x_min : ℚ
  y_min : ℚ
  x_max : ℚ
  y_max : ℚ
  deriving DecidableEq, Repr

/-- A polygon ring as a list of x,y pairs, implicitly closed. -/
abbrev Ring2 := List (ℚ × ℚ)

/-- Source type AnnotationObject (the shape stored by useStore). -/
structure AnnotationObject where
  id : String
  class_id : ℕ
  class_name : String
  bbox : BoundingBox
  points_pos : List Point
  points_neg : List Point
  polygon : Ring2
  polygon_normalized : Ring2
  score : Option ℚ
  deriving DecidableEq, Repr

/-- One undo history entry: a snapshot of the object collection. -/
structure HistoryEntry where
  objects : List AnnotationObject
  timestamp : ℕ
  deriving DecidableEq, Repr

/-- Source type ImageInfo. -/
structure ImageInfo where
  id : String
  filename : String
  width : ℚ
  height : ℚ
  has_labels : Bool
  deriving DecidableEq, Repr

/-- The tool modes appearing across the two CanvasArea variants. -/
inductive ToolMode where
  | select
  | bbox
  | point
  | lasso
  deriving DecidableEq, Repr

inductive LassoMode where
  | add
  | subtract
  deriving DecidableEq, Repr

/-- The store state of useStore.ts (the fields exercised by the
annotation core). -/
structure AppState where
  sessionId : Option String
  classes : List String
  images : List ImageInfo
  currentImageIndex : ℤ
  currentImage : Option ImageInfo
  objects : List AnnotationObject
  selectedObjectId : Option String
  toolMode : ToolMode
  lassoMode : LassoMode
  tempBbox : Option BoundingBox
  lassoPoints : List Point
  scale : ℚ
  position : Point
  maskOpacity : ℚ
  simplificationEpsilon : ℚ
  history : List HistoryEntry
  historyIndex : ℤ
  isLoading : Bool
  isSaving : Bool
  hasUnsavedChanges : Bool
  deriving DecidableEq, Repr

/-- initialState from useStore.ts (maskOpacity 0.5, epsilon 2.0). -/
def initialState : AppState where
  sessionId := none
  classes := []
  images := []
  currentImageIndex := 0
  currentImage := none
  objects := []
  selectedObjectId := none
  toolMode := ToolMode.bbox
  lassoMode := LassoMode.add
  tempBbox := none
  lassoPoints := []
  scale := 1
  position := { x := 0, y := 0 }
  maskOpacity := mkRat 1 2
  simplificationEpsilon := 2
  history := []
  historyIndex := -1
  isLoading := false
  isSaving := false
  hasUnsavedChanges := false

/-- JavaScript list.slice(0, e): a negative end index counts from the
end of the list. -/
def jsSliceTo (e : ℤ) (l : List α) : List α :=
  l.take (if e < 0 then ((l.length : ℤ) + e).toNat else e.toNat)

/-- pushHistory from useStore.ts: truncate the history to the prefix
up to the cursor, append a deep copy of the current objects with a
timestamp (Date.now() is passed in as t), drop the oldest entry when
the length exceeds 50, and point the cursor at the last entry. -/
def pushHistory (t : ℕ) (s : AppState) : AppState :=
  let newHistory0 := jsSliceTo (s.historyIndex + 1) s.history ++
    [{ objects := s.objects, timestamp := t }]
  let newHistory := if 50 < newHistory0.length then newHistory0.tail else newHistory0
  { s with history := newHistory, historyIndex := (newHistory.length : ℤ) - 1 }

/-- undo from useStore.ts: only acts when the cursor is strictly
positive; restores the entry below the cursor.  (The out-of-range
lookup branch cannot fire on states the program reaches.) -/
def undo (s : AppState) : AppState :=
  if 0 < s.historyIndex then
    match s.history.get? (s.historyIndex - 1).toNat with
    | some prevState =>
      { s with objects := prevState.objects
               historyIndex := s.historyIndex - 1
               hasUnsavedChanges := true }
    | none => s
  else s

/-- redo from useStore.ts. -/
def redo (s : AppState) : AppState :=
  if s.historyIndex < (s.history.length : ℤ) - 1 then
    match s.history.get? (s.historyIndex + 1).toNat with
    | some nextState =>
      { s with objects := nextState.objects
               historyIndex := s.historyIndex + 1
               hasUnsavedChanges := true }
    | none => s
  else s

/-- A record of optional field overrides: the TypeScript spread of a
partial update over an object; a `some` in the score field overwrites
the object's optional score. -/
structure ObjectUpdates where
  id : Option String := none
  class_id : Option ℕ := none
  class_name : Option String := none
  bbox : Option BoundingBox := none
  points_pos : Option (List Point) := none
  points_neg : Option (List Point) := none
  polygon : Option Ring2 := none
  polygon_normalized : Option Ring2 := none
  score : Option (Option ℚ) := none
  deriving Repr

/-- The spread merge of a partial update over an object. -/
def mergeUpdates (o : AnnotationObject) (u : ObjectUpdates) : AnnotationObject where
  id := u.id.getD o.id
  class_id := u.class_id.getD o.class_id
  class_name := u.class_name.getD o.class_name
  bbox := u.bbox.getD o.bbox
  points_pos := u.points_pos.getD o.points_pos
  points_neg := u.points_neg.getD o.points_neg
  polygon := u.polygon.getD o.polygon
  polygon_normalized := u.polygon_normalized.getD o.polygon_normalized
  score := u.score.getD o.score

/-- updateObject from useStore.ts: push a pre-mutation history
snapshot, then map the merge over the object with the matching id. -/
def updateObject (t : ℕ) (id : String) (u : ObjectUpdates) (s : AppState) : AppState :=
  let s1 := pushHistory t s
  { s1 with
      objects := s.objects.map (fun obj => if obj.id = id then mergeUpdates obj u else obj)
      hasUnsavedChanges := true }

/-- addObject from useStore.ts. -/
def addObject (t : ℕ) (object : AnnotationObject) (s : AppState) : AppState :=
  let s1 := pushHistory t s
  { s1 with
      objects := s.objects ++ [object]
      selectedObjectId := some object.id
      hasUnsavedChanges := true }

/-- setObjects from useStore.ts. -/
def setObjects (objects : List AnnotationObject) (s : AppState) : AppState :=
  { s with objects := objects, hasUnsavedChanges := false }

/-- setScale from useStore.ts: clamps to the 0.1 to 5 range. -/
def setScale (sc : ℚ) (s : AppState) : AppState :=
  { s with scale := max (1/10) (min 5 sc) }

/-- setPosition from useStore.ts. -/
def setPosition (p : Point) (s : AppState) : AppState :=
  { s with position := p }

/-- setCurrentImageIndex from useStore.ts: on a valid index, switch
image and clear the per-image annotation state. -/
def setCurrentImageIndex (index : ℤ) (s : AppState) : AppState :=
  if 0 ≤ index ∧ index < (s.images.length : ℤ) then
    { s with currentImageIndex := index
             currentImage := s.images.get? index.toNat
             objects := []
             selectedObjectId := none
             tempBbox := none
             lassoPoints := []
             history := []
             historyIndex := -1
             hasUnsavedChanges := false }
  else s

/-- getImagePosition from CanvasArea: the screen-to-image mapping
(pointer - offset) / scale. -/
def screenToImage (s : AppState) (pointer : Point) : Point where
  x := (pointer.x - s.position.x) / s.scale
  y := (pointer.y - s.position.y) / s.scale

/-- handleWheel from CanvasArea: multiply or divide the scale by 1.1,
clamp to the 0.1 to 5 range, and recompute the offset so the image
point under the pointer stays put. -/
def handleWheel (deltaY : ℚ) (pointer : Point) (s : AppState) : AppState :=
  let oldScale := s.scale
  let newScale := if 0 < deltaY then oldScale / (11/10) else oldScale * (11/10)
  let clampedScale := max (1/10) (min 5 newScale)
  let mousePointTo : Point :=
    { x := (pointer.x - s.position.x) / oldScale
      y := (pointer.y - s.position.y) / oldScale }
  setPosition
    { x := pointer.x - mousePointTo.x * clampedScale
      y := pointer.y - mousePointTo.y * clampedScale }
    (setScale clampedScale s)

/-- The fit-to-image effect in CanvasArea: fit scale with a 100 pixel
margin, capped at 1, stored through setScale; the offset centers the
image using the uncapped fit value. -/
def fitToImage (img : ImageInfo) (containerW containerH : ℚ) (s : AppState) : AppState :=
  let scaleX := (containerW - 100) / img.width
  let scaleY := (containerH - 100) / img.height
  let fitScale := min (min scaleX scaleY) 1
  setPosition
    { x := (containerW - img.width * fitScale) / 2
      y := (containerH - img.height * fitScale) / 2 }
    (setScale fitScale s)

/-- Shoelace signed area from CanvasArea (polygonArea): the loop pairs
each vertex with its cyclic successor. -/
def polygonArea (polygon : Ring2) : ℚ :=
  ((polygon.zip (polygon.rotate 1)).foldl
    (fun area pq => area + pq.1.1 * pq.2.2 - pq.2.1 * pq.1.2) 0) / 2

/-- The external polygon-clipping library call boundary: `none` models
a thrown exception, `some` gives the MultiPolygon result (a list of
polygons, each a list of rings). -/
abbrev ClipFn := Ring2 → Ring2 → Option (List (List Ring2))

/-- One step of the source's largest-ring scan: carry the current
largest ring with its absolute area, replace on strictly larger. -/
def pickStep (acc : Ring2 × ℚ) (ring : Ring2) : Ring2 × ℚ :=
  let area := |polygonArea ring|
  if acc.2 < area then (ring, area) else acc

/-- The largest-absolute-area ring selection loop shared verbatim by
polygonUnion and polygonDifference in the source: start from
result[0][0] and scan every ring of every output polygon. -/
def pickLargestRing (result : List (List Ring2)) (r0 : Ring2) : Ring2 :=
  (result.flatten.foldl pickStep (r0, |polygonArea r0|)).1

/-- polygonUnion from CanvasArea, with the polygon-clipping library
call abstracted as the parameter clip; a `none` result models the
catch branch, which returns poly1 unchanged. -/
def polygonUnion (clip : ClipFn) (poly1 poly2 : Ring2) : Ring2 :=
  match clip poly1 poly2 with
  | none => poly1
  | some result =>
    match result with
    | [] => poly1
    | first :: _ =>
      match first with
      | [] => poly1
      | r0 :: _ => pickLargestRing result r0

/-- polygonDifference from CanvasArea, same structure as polygonUnion
(the source duplicates the selection loop; both are embedded through
pickLargestRing). -/
def polygonDifference (clip : ClipFn) (poly1 poly2 : Ring2) : Ring2 :=
  match clip poly1 poly2 with
  | none => poly1
  | some result =>
    match result with
    | [] => poly1
    | first :: _ =>
      match first with
      | [] => poly1
      | r0 :: _ => pickLargestRing result r0

/-- Math.min spread over a coordinate list; rings reaching it in the
source are nonempty, so the empty default is never exercised. -/
def listMin : List ℚ → ℚ
  | [] => 0
  | h :: tl => tl.foldl min h

/-- Math.max spread over a coordinate list. -/
def listMax : List ℚ → ℚ
  | [] => 0
  | h :: tl => tl.foldl max h

/-- applyLassoMask from CanvasArea: boolean-edit the object's polygon
with the lasso stroke, recompute the clamped bounding box and the
normalized ring, and write all three through updateObject. -/
def applyLassoMask (clipU clipD : ClipFn) (t : ℕ) (obj : AnnotationObject)
    (lasso : List Point) (mode : LassoMode) (s : AppState) : AppState :=
  match s.currentImage with
  | none => s
  | some currentImage =>
    let lassoPolygon : Ring2 := lasso.map (fun p => (p.x, p.y))
    let originalPolygon := obj.polygon
    let newPolygon : Ring2 :=
      match mode with
      | LassoMode.add => polygonUnion clipU originalPolygon lassoPolygon
      | LassoMode.subtract => polygonDifference clipD originalPolygon lassoPolygon
    let xs := newPolygon.map Prod.fst
    let ys := newPolygon.map Prod.snd
    let newBbox : BoundingBox :=
      { x_min := max 0 (listMin xs)
        y_min := max 0 (listMin ys)
        x_max := min currentImage.width (listMax xs)
        y_max := min currentImage.height (listMax ys) }
    let newPolygonNormalized : Ring2 :=
      newPolygon.map (fun q => (q.1 / currentImage.width, q.2 / currentImage.height))
    updateObject t obj.id
      { polygon := some newPolygon
        polygon_normalized := some newPolygonNormalized
        bbox := some newBbox } s

/-- The outward effect of a completed gesture: either nothing, or the
asynchronous segmentation request fired for a valid box. -/
inductive Effect where
  | noEffect
  | predictBox (image_id : String) (bbox : BoundingBox)
  deriving DecidableEq, Repr

/-- The CanvasArea component-local state around the store. -/
structure CanvasState where
  app : AppState
  isPanning : Bool
  isDrawingLasso : Bool
  deriving Repr

/-- handleMouseUp from the lasso-capable CanvasArea: end panning,
complete a bounding-box gesture (normalizing the dragged corners and
gating on the minimum 10 by 10 size before firing the prediction
request), then complete or cancel a lasso gesture. -/
def handleMouseUp (clipU clipD : ClipFn) (t : ℕ) (c : CanvasState) :
    CanvasState × Effect :=
  if c.isPanning then ({ c with isPanning := false }, Effect.noEffect)
  else
    let s := c.app
    let step1 : AppState × Effect :=
      if s.toolMode = ToolMode.bbox then
        match s.tempBbox, s.currentImage, s.sessionId with
        | some tempBbox, some img, some _ =>
          let bbox : BoundingBox :=
            { x_min := min tempBbox.x_min tempBbox.x_max
              y_min := min tempBbox.y_min tempBbox.y_max
              x_max := max tempBbox.x_min tempBbox.x_max
              y_max := max tempBbox.y_min tempBbox.y_max }
          let width := bbox.x_max - bbox.x_min
          let height := bbox.y_max - bbox.y_min
          let eff := if 10 < width ∧ 10 < height then Effect.predictBox img.id bbox
            else Effect.noEffect
          ({ s with tempBbox := none }, eff)
        | _, _, _ => (s, Effect.noEffect)
      else (s, Effect.noEffect)
    let s1 := step1.1
    if s1.toolMode = ToolMode.lasso ∧ c.isDrawingLasso ∧ 3 ≤ s1.lassoPoints.length then
      let s2 : AppState :=
        match s1.objects.find? (fun o => some o.id = s1.selectedObjectId),
              s1.sessionId, s1.currentImage with
        | some selectedObj, some _, some _ =>
          applyLassoMask clipU clipD t selectedObj s1.lassoPoints s1.lassoMode s1
        | _, _, _ => s1
      ({ app := { s2 with lassoPoints := [] }, isPanning := false, isDrawingLasso := false },
        step1.2)
    else if s1.toolMode = ToolMode.lasso ∧ c.isDrawingLasso then
      ({ app := { s1 with lassoPoints := [] }, isPanning := false, isDrawingLasso := false },
        step1.2)
    else
      ({ app := s1, isPanning := false, isDrawingLasso := c.isDrawingLasso }, step1.2)

/-- The segmentation oracle response fields consumed by the canvas. -/
structure PredictResponse where
  polygon_points : Ring2
  polygon_normalized : Ring2
  score : ℚ
  deriving DecidableEq, Repr

/-- The success continuation of runPrediction (the point-refinement
path): the response is written to the object unconditionally through
updateObject; the source attaches no request sequence number and
performs no staleness check. -/
def resolvePrediction (t : ℕ) (obj_id : String) (pointsPos pointsNeg : List Point)
    (response : PredictResponse) (s : AppState) : AppState :=
  updateObject t obj_id
    { points_pos := some pointsPos
      points_neg := some pointsNeg
      polygon := some response.polygon_points
      polygon_normalized := some response.polygon_normalized
      score := some (some response.score) } s

/-- A batch of prediction responses for one object, applied in the
order in which the responses resolve (each triple: the positive and
negative click points sent with the request, and the response). -/
def resolveBatch (obj_id : String)
    (rs : List (List Point × List Point × PredictResponse)) (s : AppState) : AppState :=
  rs.foldl (fun st r => resolvePrediction 0 obj_id r.1 r.2.1 r.2.2 st) s

/-- Even-odd ray-cast point-in-polygon test over the integers (the
ray goes toward positive x; the strict-inequality crossing test is
written with cross-multiplication instead of division). -/
def pointInRingZ (r : List (ℤ × ℤ)) (px py : ℤ) : Bool :=
  let crossings := (r.zip (r.rotate 1)).foldl
    (fun n e =>
      let x1 := e.1.1
      let y1 := e.1.2
      let x2 := e.2.1
      let y2 := e.2.2
      if (decide (py < y1) != decide (py < y2)) &&
         (if 0 < y2 - y1 then
            decide ((px - x1) * (y2 - y1) < (py - y1) * (x2 - x1))
          else
            decide ((py - y1) * (x2 - x1) < (px - x1) * (y2 - y1)))
      then n + 1 else n)
    (0 : ℕ)
  crossings % 2 == 1

/-- Least element of an integer list (0 for the empty list). -/
def listMinZ : List ℤ → ℤ
  | [] => 0
  | h :: tl => tl.foldl min h

/-- Greatest element of an integer list (0 for the empty list). -/
def listMaxZ : List ℤ → ℤ
  | [] => 0
  | h :: tl => tl.foldl max h

/-- Row-major enumeration of the grid cells of a rectangle of cells. -/
def cellGrid (iLo iHi jLo jHi : ℤ) : List (ℤ × ℤ) :=
  ((List.range (iHi - iLo).toNat).map (fun a => iLo + (a : ℤ))).flatMap
    (fun i => ((List.range (jHi - jLo).toNat).map (fun b => jLo + (b : ℤ))).map
      (fun j => (i, j)))

/-- Counter-clockwise directed boundary edges of a cell region: one
edge per side of a region cell whose neighbour on that side is
outside, oriented with the region on its left. -/
def boundaryEdges (inR : ℤ → ℤ → Bool) (cells : List (ℤ × ℤ)) :
    List ((ℤ × ℤ) × (ℤ × ℤ)) :=
  cells.flatMap (fun c =>
    let i := c.1
    let j := c.2
    if inR i j then
      (if inR i (j - 1) then [] else [((i, j), (i + 1, j))]) ++
      (if inR (i + 1) j then [] else [((i + 1, j), (i + 1, j + 1))]) ++
      (if inR i (j + 1) then [] else [((i + 1, j + 1), (i, j + 1))]) ++
      (if inR (i - 1) j then [] else [((i, j + 1), (i, j))])
    else [])

/-- Chain directed boundary edges into a closed vertex cycle, fuelled
by the number of edges. -/
def walkRing : ℕ → (ℤ × ℤ) → (ℤ × ℤ) → List ((ℤ × ℤ) × (ℤ × ℤ)) →
    List (ℤ × ℤ) → List (ℤ × ℤ)
  | 0, _, _, _, acc => acc.reverse
  | Nat.succ fuel, start, current, remaining, acc =>
    if current = start then acc.reverse
    else
      match remaining.find? (fun e => decide (e.1 = current)) with
      | none => acc.reverse
      | some e => walkRing fuel start e.2 (remaining.erase e) (current :: acc)

/-- Start the boundary walk at the first enumerated edge. -/
def traceRing (edges : List ((ℤ × ℤ) × (ℤ × ℤ))) : List (ℤ × ℤ) :=
  match edges with
  | [] => []
  | e0 :: rest => walkRing (edges.length + 1) e0.1 e0.2 rest [e0.1]

/-- Drop the intermediate vertices of straight runs: a vertex is kept
exactly when the edge direction changes there. -/
def simplifyRing (r : List (ℤ × ℤ)) : List (ℤ × ℤ) :=
  let n := r.length
  (List.range n).filterMap (fun k =>
    match r.get? ((k + n - 1) % n), r.get? k, r.get? ((k + 1) % n) with
    | some a, some b, some c =>
      if (b.1 - a.1, b.2 - a.2) = (c.1 - b.1, c.2 - b.2) then none else some b
    | _, _, _ => none)

/-- Coordinate of a grid-aligned rational in units of the grid size g
(exact division for the grid-aligned rings this model serves). -/
def toGrid (g : ℤ) (q : ℚ) : ℤ :=
  q.num / ((q.den : ℤ) * g)

/-- Modelled from the spec: the external polygon-clipping library
(polygonClipping.union and polygonClipping.difference), which is not
part of this repository.  The spec asks for the exact geometric union
or difference of the two simple rings; this model computes it exactly
for rectilinear rings whose vertices lie on the integer grid of size
g, by cell decomposition (cell membership decided at cell centers)
and counter-clockwise boundary tracing, and returns the result as a
MultiPolygon holding one polygon with one ring. -/
def clipModel (isUnion : Bool) (g : ℤ) (r1 r2 : Ring2) : Option (List (List Ring2)) :=
  let z1 := r1.map (fun p => (2 * toGrid g p.1, 2 * toGrid g p.2))
  let z2 := r2.map (fun p => (2 * toGrid g p.1, 2 * toGrid g p.2))
  let inR : ℤ → ℤ → Bool := fun i j =>
    if isUnion then
      pointInRingZ z1 (2 * i + 1) (2 * j + 1) || pointInRingZ z2 (2 * i + 1) (2 * j + 1)
    else
      pointInRingZ z1 (2 * i + 1) (2 * j + 1) && !pointInRingZ z2 (2 * i + 1) (2 * j + 1)
  let is := (z1 ++ z2).map Prod.fst
  let js := (z1 ++ z2).map Prod.snd
  let cells := cellGrid (listMinZ is / 2) (listMaxZ is / 2) (listMinZ js / 2) (listMaxZ js / 2)
  let ringScaled := (simplifyRing (traceRing (boundaryEdges inR cells))).map
    (fun p => (((p.1 * g : ℤ) : ℚ), ((p.2 * g : ℤ) : ℚ)))
  some [[ringScaled]]

/-! ### Concrete fixtures used by witnesses and counterexamples -/

/-- The object square of the spec's lasso test cases. -/
def squareRing : Ring2 := [(0, 0), (100, 0), (100, 100), (0, 100)]

/-- The stroke square of the spec's lasso test cases. -/
def strokeSquareRing : Ring2 := [(50, 50), (150, 50), (150, 150), (50, 150)]

/-- The stroke square as accumulated lasso points. -/
def strokePoints : List Point :=
  [{ x := 50, y := 50 }, { x := 150, y := 50 }, { x := 150, y := 150 }, { x := 50, y := 150 }]

def demoImage : ImageInfo where
  id := "img1"
  filename := "a.png"
  width := 200
  height := 200
  has_labels := false

def demoObject : AnnotationObject where
  id := "a"
  class_id := 0
  class_name := "object"
  bbox := { x_min := 0, y_min := 0, x_max := 100, y_max := 100 }
  points_pos := []
  points_neg := []
  polygon := squareRing
  polygon_normalized := []
  score := none

def demoState : AppState :=
  { initialState with
      sessionId := some "s1"
      images := [demoImage]
      currentImage := some demoImage
      objects := [demoObject]
      selectedObjectId := some "a" }

/-! ### C2: undo is gated on a strictly positive cursor -/

/-- C2: undo() is a no-op unless the history cursor is strictly
greater than 0; starting from an empty history (cursor -1), one push
sets the cursor to 0 and stores one entry, and a subsequent undo()
changes neither the object collection nor the cursor (nor anything
else), even though a prior state exists in the history. -/
theorem c2_undo_noop_unless_positive_cursor :
    (∀ s : AppState, s.historyIndex ≤ 0 → undo s = s) ∧
    (∀ (s : AppState) (t : ℕ), s.history = [] → s.historyIndex = -1 →
      (pushHistory t s).historyIndex = 0 ∧
      (pushHistory t s).history.length = 1 ∧
      undo (pushHistory t s) = pushHistory t s) := by
  constructor
  · intro s h
    simp [undo, not_lt.mpr h]
  · intro s t h1 h2
    have hpush : pushHistory t s =
        { s with history := [{ objects := s.objects, timestamp := t }], historyIndex := 0 } := by
      simp [pushHistory, jsSliceTo, h1, h2]
    rw [hpush]
    exact ⟨rfl, rfl, by simp [undo]⟩

/-- Closed witness for C2 at the initial store state. -/
theorem c2_witness :
    undo initialState = initialState ∧
    (pushHistory 7 initialState).historyIndex = 0 ∧
    undo (pushHistory 7 initialState) = pushHistory 7 initialState := by
  refine ⟨c2_undo_noop_unless_positive_cursor.1 initialState (by decide), ?_, ?_⟩
  · exact (c2_undo_noop_unless_positive_cursor.2 initialState 7 rfl rfl).1
  · exact (c2_undo_noop_unless_positive_cursor.2 initialState 7 rfl rfl).2.2

/-! ### C9: switching the active image resets the session -/

/-- C9: for every prior state, setting a valid current-image index
clears the object collection, the selection, the history (cursor -1),
and the transient tool state (the in-progress box and lasso points),
so no object and no history entry survives an image switch. -/
theorem c9_image_switch_resets (s : AppState) (index : ℤ)
    (h1 : 0 ≤ index) (h2 : index < (s.images.length : ℤ)) :
    (setCurrentImageIndex index s).objects = [] ∧
    (setCurrentImageIndex index s).selectedObjectId = none ∧
    (setCurrentImageIndex index s).history = [] ∧
    (setCurrentImageIndex index s).historyIndex = -1 ∧
    (setCurrentImageIndex index s).tempBbox = none ∧
    (setCurrentImageIndex index s).lassoPoints = [] ∧
    (setCurrentImageIndex index s).hasUnsavedChanges = false := by
  rw [setCurrentImageIndex, if_pos ⟨h1, h2⟩]
  exact ⟨rfl, rfl, rfl, rfl, rfl, rfl, rfl⟩

/-- Closed witness for C9 on a session with one image and one object. -/
theorem c9_witness :
    (setCurrentImageIndex 0 demoState).objects = [] ∧
    (setCurrentImageIndex 0 demoState).history = [] := by
  have h := c9_image_switch_resets demoState 0 (by decide) (by decide)
  exact ⟨h.1, h.2.2.1⟩

/-! ### C10: updateObject touches at most the matching object -/

/-- C10: updateObject(id, updates) keeps the collection's length and
order, leaves every object with a different id unchanged, leaves the
whole collection unchanged when no object has the id, and always
pushes a pre-mutation history snapshot and sets the unsaved flag. -/
theorem c10_update_object_frame (t : ℕ) (id : String) (u : ObjectUpdates) (s : AppState) :
    ((updateObject t id u s).objects.length = s.objects.length) ∧
    (∀ (j : ℕ) (o : AnnotationObject), s.objects.get? j = some o → o.id ≠ id →
      (updateObject t id u s).objects.get? j = some o) ∧
    ((∀ o ∈ s.objects, o.id ≠ id) → (updateObject t id u s).objects = s.objects) ∧
    ((updateObject t id u s).hasUnsavedChanges = true) ∧
    ((updateObject t id u s).history = (pushHistory t s).history) := by
  refine ⟨by simp [updateObject], ?_, ?_, rfl, rfl⟩
  · intro j o hj hne
    simp only [updateObject, List.get?_eq_getElem?, List.getElem?_map] at *
    rw [hj]
    simp [hne]
  · intro hall
    have hmap : s.objects.map (fun obj => if obj.id = id then mergeUpdates obj u else obj) =
        s.objects.map (fun obj => obj) := by
      apply List.map_congr_left
      intro o ho
      exact if_neg (hall o ho)
    simp [updateObject, hmap]

/-- Closed witness for C10: an update aimed at an absent id leaves the
demo collection untouched while still pushing history. -/
theorem c10_witness :
    (updateObject 3 "zzz" { class_id := some 5 } demoState).objects = demoState.objects ∧
    (updateObject 3 "zzz" { class_id := some 5 } demoState).history =
      (pushHistory 3 demoState).history := by
  have h := c10_update_object_frame 3 "zzz" { class_id := some 5 } demoState
  exact ⟨h.2.2.1 (by decide), h.2.2.2.2⟩

/-! ### C4: wheel zoom anchors the image point under the pointer -/

/-- C4: for every viewport state with scale in the clamp range, every
pointer position and either wheel direction, the image-space point
under the pointer is the same immediately before and after the zoom
(exact over the rationals): the new scale is the old one multiplied or
divided by 1.1 and clamped to the 0.1 to 5 range, and the new offset
is pointer minus that image point times the new scale. -/
theorem c4_zoom_anchor (deltaY : ℚ) (pointer : Point) (s : AppState)
    (h1 : 1/10 ≤ s.scale) (h2 : s.scale ≤ 5) :
    screenToImage (handleWheel deltaY pointer s) pointer = screenToImage s pointer := by
  unfold handleWheel screenToImage setScale setPosition
  set ns := if 0 < deltaY then s.scale / (11/10) else s.scale * (11/10) with hns
  set c := max (1/10) (min 5 ns) with hc
  have hclo : (1:ℚ)/10 ≤ c := le_max_left _ _
  have hchi : c ≤ 5 := max_le (by norm_num) (min_le_left _ _)
  have hcpos : (0:ℚ) < c := lt_of_lt_of_le (by norm_num) hclo
  have hstore : max (1/10) (min 5 c) = c := by
    rw [min_eq_right hchi, max_eq_right hclo]
  simp only [hstore, Point.mk.injEq]
  constructor
  · rw [sub_sub_cancel, mul_div_cancel_right₀ _ hcpos.ne']
  · rw [sub_sub_cancel, mul_div_cancel_right₀ _ hcpos.ne']

/-- Closed witness for C4 at a concrete viewport. -/
theorem c4_witness :
    screenToImage (handleWheel 3 { x := 7, y := 9 } initialState) { x := 7, y := 9 } =
      screenToImage initialState { x := 7, y := 9 } :=
  c4_zoom_anchor 3 { x := 7, y := 9 } initialState (by norm_num [initialState]) (by norm_num [initialState])

/-! ### C5: fit-to-image scale and centering -/

def wideImage : ImageInfo where
  id := "img0"
  filename := "big.png"
  width := 1000
  height := 1000
  has_labels := false

/-- C5 counterexample: with a 50 by 50 container and a 1000 by 1000
image the raw fit value min((w-100)/iw, (h-100)/ih, 1) is -1/20, but
the stored scale is its clamp 1/10, and the stored offset (50, 50) is
computed from the raw value, not from the stored scale (centering with
the stored scale would give -25): both equalities of the claim fail. -/
theorem c5_counterexample :
    (fitToImage wideImage 50 50 initialState).scale = 1/10 ∧
    min (min ((50 - 100) / wideImage.width) ((50 - 100) / wideImage.height)) 1 = -(1/20) ∧
    (fitToImage wideImage 50 50 initialState).scale ≠
      min (min ((50 - 100) / wideImage.width) ((50 - 100) / wideImage.height)) 1 ∧
    (fitToImage wideImage 50 50 initialState).position.x = 50 ∧
    (50 - wideImage.width * (fitToImage wideImage 50 50 initialState).scale) / 2 = -25 ∧
    (fitToImage wideImage 50 50 initialState).position.x ≠
      (50 - wideImage.width * (fitToImage wideImage 50 50 initialState).scale) / 2 := by
  have hfit : min (min ((50 - 100) / wideImage.width) ((50 - 100) / wideImage.height)) 1
      = -(1/20) := by
    norm_num [wideImage]
  have hsc : (fitToImage wideImage 50 50 initialState).scale = 1/10 := by
    show max (1/10) (min 5 (min (min ((50 - 100) / wideImage.width)
      ((50 - 100) / wideImage.height)) 1)) = 1/10
    rw [hfit]
    norm_num
  have hpos : (fitToImage wideImage 50 50 initialState).position.x = 50 := by
    show (50 - wideImage.width * (min (min ((50 - 100) / wideImage.width)
      ((50 - 100) / wideImage.height)) 1)) / 2 = 50
    rw [hfit]
    norm_num [wideImage]
  refine ⟨hsc, hfit, ?_, hpos, ?_, ?_⟩
  · rw [hsc, hfit]
    norm_num
  · rw [hsc]
    norm_num [wideImage]
  · rw [hsc, hpos]
    norm_num [wideImage]

/-- C5 amended: fitToImage stores the clamp of the raw fit value
min((containerW-100)/imageW, (containerH-100)/imageH, 1) to the 0.1 to
5 range, and centers using the raw (unclamped) value; whenever the raw
value is at least 0.1 the two coincide and the claim's equations hold:
the stored scale is the min and the offset centers the image with the
stored scale. -/
theorem c5_amended_fit_scale_and_centering (img : ImageInfo) (cw ch : ℚ) (s : AppState)
    (h : 1/10 ≤ min (min ((cw - 100) / img.width) ((ch - 100) / img.height)) 1) :
    (fitToImage img cw ch s).scale =
      min (min ((cw - 100) / img.width) ((ch - 100) / img.height)) 1 ∧
    (fitToImage img cw ch s).position.x =
      (cw - img.width * (fitToImage img cw ch s).scale) / 2 ∧
    (fitToImage img cw ch s).position.y =
      (ch - img.height * (fitToImage img cw ch s).scale) / 2 := by
  set f := min (min ((cw - 100) / img.width) ((ch - 100) / img.height)) 1 with hf
  have hle5 : f ≤ 5 := le_trans (min_le_right _ _) (by norm_num)
  have hsc : (fitToImage img cw ch s).scale = f := by
    show max (1/10) (min 5 f) = f
    rw [min_eq_right hle5, max_eq_right h]
  refine ⟨hsc, ?_, ?_⟩
  · show (cw - img.width * f) / 2 = _
    rw [hsc]
  · show (ch - img.height * f) / 2 = _
    rw [hsc]

/-- Closed witness for the amended C5: a 300 by 300 container around a
200 by 200 image fits at scale 1, centered at offset 50. -/
theorem c5_amended_witness :
    (fitToImage demoImage 300 300 initialState).scale = 1 ∧
    (fitToImage demoImage 300 300 initialState).position.x = 50 := by
  have h := c5_amended_fit_scale_and_centering demoImage 300 300 initialState
    (by norm_num [demoImage])
  constructor
  · rw [h.1]
    norm_num [demoImage]
  · rw [h.2.1, h.1]
    norm_num [demoImage]

/-! ### C6: undersized box gestures are discarded silently -/

/-- C6: a bounding-box gesture whose normalized rectangle is at most
10 image units wide or at most 10 units tall fires no prediction
request and creates nothing: the objects, selection and history of the
store are exactly as before (only the in-progress box is cleared). -/
theorem c6_small_bbox_discarded (clipU clipD : ClipFn) (t : ℕ) (c : CanvasState)
    (tb : BoundingBox) (img : ImageInfo) (sid : String)
    (hpan : c.isPanning = false)
    (hmode : c.app.toolMode = ToolMode.bbox)
    (hbb : c.app.tempBbox = some tb)
    (himg : c.app.currentImage = some img)
    (hsid : c.app.sessionId = some sid)
    (hsmall : max tb.x_min tb.x_max - min tb.x_min tb.x_max ≤ 10 ∨
              max tb.y_min tb.y_max - min tb.y_min tb.y_max ≤ 10) :
    (handleMouseUp clipU clipD t c).2 = Effect.noEffect ∧
    (handleMouseUp clipU clipD t c).1.app.objects = c.app.objects ∧
    (handleMouseUp clipU clipD t c).1.app.selectedObjectId = c.app.selectedObjectId ∧
    (handleMouseUp clipU clipD t c).1.app.history = c.app.history ∧
    (handleMouseUp clipU clipD t c).1.app.historyIndex = c.app.historyIndex := by
  have hsize : ¬(10 < max tb.x_min tb.x_max - min tb.x_min tb.x_max ∧
      10 < max tb.y_min tb.y_max - min tb.y_min tb.y_max) := by
    rcases hsmall with h | h
    · exact fun hw => absurd h (not_le.mpr hw.1)
    · exact fun hw => absurd h (not_le.mpr hw.2)
  simp [handleMouseUp, hpan, hmode, hbb, himg, hsid, hsize]

/-- Closed witness for C6: a 5 by 200 drag on the demo session fires
nothing and leaves the store intact. -/
theorem c6_witness :
    (handleMouseUp (fun _ _ => none) (fun _ _ => none) 0
      { app := { demoState with tempBbox := some { x_min := 0, y_min := 0, x_max := 5, y_max := 200 } },
        isPanning := false, isDrawingLasso := false }).2 = Effect.noEffect ∧
    (handleMouseUp (fun _ _ => none) (fun _ _ => none) 0
      { app := { demoState with tempBbox := some { x_min := 0, y_min := 0, x_max := 5, y_max := 200 } },
        isPanning := false, isDrawingLasso := false }).1.app.objects = demoState.objects := by
  have h := c6_small_bbox_discarded (fun _ _ => none) (fun _ _ => none) 0
    { app := { demoState with tempBbox := some { x_min := 0, y_min := 0, x_max := 5, y_max := 200 } },
      isPanning := false, isDrawingLasso := false }
    { x_min := 0, y_min := 0, x_max := 5, y_max := 200 } demoImage "s1"
    rfl rfl rfl rfl rfl (Or.inl (by norm_num))
  exact ⟨h.1, h.2.1⟩

/-! ### C1: out-of-order prediction responses -/

def respFirst : PredictResponse where
  polygon_points := [(0, 0), (10, 0), (10, 10)]
  polygon_normalized := []
  score := mkRat 1 2

def respSecond : PredictResponse where
  polygon_points := [(0, 0), (20, 0), (20, 20)]
  polygon_normalized := []
  score := mkRat 3 4

/-- C1 counterexample: two prediction requests for object a are issued
in order and their responses resolve out of send order, the second
request's response first.  The code applies both unconditionally (no
sequence number exists anywhere in runPrediction or the store), so the
final polygon is the EARLIER request's, not the newer one's: the older
response is not discarded and overwrites the newer state. -/
theorem c1_counterexample :
    (resolvePrediction 1 "a" [] [] respFirst
      (resolvePrediction 0 "a" [] [] respSecond demoState)).objects.map
      AnnotationObject.polygon = [respFirst.polygon_points] ∧
    respFirst.polygon_points ≠ respSecond.polygon_points := by
  constructor
  · decide
  · decide

/-- C1 amended: the code attaches no sequence number and performs no
staleness check; each resolved response is written through
updateObject unconditionally, so after any batch of resolutions the
object carries the data of the response that resolved last, whatever
the send order was. -/
theorem c1_last_resolution_wins (obj_id : String)
    (rs0 : List (List Point × List Point × PredictResponse))
    (pp pn : List Point) (r : PredictResponse) (s : AppState) :
    ∀ o ∈ (resolveBatch obj_id (rs0 ++ [(pp, pn, r)]) s).objects,
      o.id = obj_id →
        o.polygon = r.polygon_points ∧
        o.polygon_normalized = r.polygon_normalized ∧
        o.score = some r.score ∧
        o.points_pos = pp ∧
        o.points_neg = pn := by
  intro o ho hid
  rw [resolveBatch, List.foldl_append, List.foldl_cons, List.foldl_nil] at ho
  simp only [resolvePrediction, updateObject, List.mem_map] at ho
  obtain ⟨o0, -, rfl⟩ := ho
  by_cases h0 : o0.id = obj_id
  · simp [h0, mergeUpdates]
  · rw [if_neg h0] at hid
    exact absurd hid h0

/-- The object a as left by the late-resolving first response. -/
def demoMergedFirst : AnnotationObject where
  id := "a"
  class_id := 0
  class_name := "object"
  bbox := { x_min := 0, y_min := 0, x_max := 100, y_max := 100 }
  points_pos := []
  points_neg := []
  polygon := respFirst.polygon_points
  polygon_normalized := []
  score := some (mkRat 1 2)

/-- Closed witness for the amended C1. -/
theorem c1_witness :
    demoMergedFirst ∈ (resolveBatch "a"
      ([([], [], respSecond)] ++ [([], [], respFirst)]) demoState).objects ∧
    demoMergedFirst.polygon = respFirst.polygon_points := by
  have hm : demoMergedFirst ∈ (resolveBatch "a"
      ([([], [], respSecond)] ++ [([], [], respFirst)]) demoState).objects := by decide
  exact ⟨hm, (c1_last_resolution_wins "a" [([], [], respSecond)] [] [] respFirst demoState
    demoMergedFirst hm rfl).1⟩

/-! ### C8: geometry failure leaves the polygon unchanged -/

/-- The clipping outcomes the source treats as failures: a thrown
exception (none), an empty result list, or an empty first polygon. -/
def DegenerateClip (r : Option (List (List Ring2))) : Prop :=
  r = none ∨ r = some [] ∨ ∃ rest, r = some ([] :: rest)

theorem polygonUnion_degenerate (clip : ClipFn) (p1 p2 : Ring2)
    (h : DegenerateClip (clip p1 p2)) : polygonUnion clip p1 p2 = p1 := by
  rcases h with h | h | ⟨rest, h⟩ <;> simp [polygonUnion, h]

theorem polygonDifference_degenerate (clip : ClipFn) (p1 p2 : Ring2)
    (h : DegenerateClip (clip p1 p2)) : polygonDifference clip p1 p2 = p1 := by
  rcases h with h | h | ⟨rest, h⟩ <;> simp [polygonDifference, h]

/-- C8: if the boolean clipping step throws or yields a degenerate
result, every object's polygon after the lasso edit equals its
pre-edit polygon point for point (the edited object is written back
with its own unchanged ring; the failure is absorbed, not fatal). -/
theorem c8_geometry_failure_preserves_polygon (clipU clipD : ClipFn) (t : ℕ)
    (obj : AnnotationObject) (lasso : List Point) (mode : LassoMode) (s : AppState)
    (hU : DegenerateClip (clipU obj.polygon (lasso.map (fun p => (p.x, p.y)))))
    (hD : DegenerateClip (clipD obj.polygon (lasso.map (fun p => (p.x, p.y)))))
    (huniq : ∀ o ∈ s.objects, o.id = obj.id → o = obj) :
    ∀ j : ℕ,
      ((applyLassoMask clipU clipD t obj lasso mode s).objects.get? j).map
        AnnotationObject.polygon = (s.objects.get? j).map AnnotationObject.polygon ∧
      ((applyLassoMask clipU clipD t obj lasso mode s).objects.get? j).map
        AnnotationObject.id = (s.objects.get? j).map AnnotationObject.id := by
  intro j
  cases himg : s.currentImage with
  | none =>
    rw [applyLassoMask, himg]
    exact ⟨rfl, rfl⟩
  | some img =>
    have hnew : (match mode with
        | LassoMode.add => polygonUnion clipU obj.polygon (lasso.map (fun p => (p.x, p.y)))
        | LassoMode.subtract =>
          polygonDifference clipD obj.polygon (lasso.map (fun p => (p.x, p.y))))
        = obj.polygon := by
      cases mode
      · exact polygonUnion_degenerate _ _ _ hU
      · exact polygonDifference_degenerate _ _ _ hD
    rw [applyLassoMask, himg]
    simp only [updateObject, List.get?_eq_getElem?, List.getElem?_map]
    cases hjo : s.objects[j]? with
    | none => exact ⟨rfl, rfl⟩
    | some o =>
      have ho : o ∈ s.objects := List.getElem?_mem hjo
      by_cases hoid : o.id = obj.id
      · have hobj : o = obj := huniq o ho hoid
        subst hobj
        constructor
        · simp [if_pos hoid, mergeUpdates, hnew]
        · simp [if_pos hoid, mergeUpdates]
      · constructor
        · simp [if_neg hoid]
        · simp [if_neg hoid]

/-- Closed witness for C8: a throwing clip on the demo session leaves
the stored polygon equal to the pre-edit square. -/
theorem c8_witness :
    ((applyLassoMask (fun _ _ => none) (fun _ _ => none) 0 demoObject
      strokePoints LassoMode.add demoState).objects.get? 0).map
      AnnotationObject.polygon = some squareRing := by
  have h := c8_geometry_failure_preserves_polygon (fun _ _ => none) (fun _ _ => none) 0
    demoObject strokePoints LassoMode.add demoState (Or.inl rfl) (Or.inl rfl)
    (by decide) 0
  rw [h.1]
  decide

/-! ### C7: the largest-ring policy and the two lasso test cases -/

/-- The union of the two test squares as traced by the clip model. -/
def octagonRing : Ring2 :=
  [(0, 0), (100, 0), (100, 50), (150, 50), (150, 150), (50, 150), (50, 100), (0, 100)]

/-- The difference of the two test squares as traced by the clip model. -/
def hexagonRing : Ring2 :=
  [(0, 0), (100, 0), (100, 50), (50, 50), (50, 100), (0, 100)]

/-- The largest-ring fold keeps its area in sync, returns a ring drawn
from the scanned list (or the seed), never lowers the carried area,
and dominates the absolute area of every scanned ring. -/
theorem pickFold_spec (L : List Ring2) :
    ∀ acc : Ring2 × ℚ, acc.2 = |polygonArea acc.1| →
      ((L.foldl pickStep acc).2 = |polygonArea (L.foldl pickStep acc).1|) ∧
      ((L.foldl pickStep acc).1 = acc.1 ∨ (L.foldl pickStep acc).1 ∈ L) ∧
      (acc.2 ≤ (L.foldl pickStep acc).2) ∧
      (∀ r ∈ L, |polygonArea r| ≤ (L.foldl pickStep acc).2) := by
  induction L with
  | nil =>
    intro acc h
    exact ⟨h, Or.inl rfl, le_refl _, by simp⟩
  | cons hd tl ih =>
    intro acc h
    simp only [List.foldl_cons]
    by_cases hc : acc.2 < |polygonArea hd|
    · have hstep : pickStep acc hd = (hd, |polygonArea hd|) := by
        simp [pickStep, hc]
      rw [hstep]
      have hr := ih (hd, |polygonArea hd|) rfl
      refine ⟨hr.1, ?_, ?_, ?_⟩
      · rcases hr.2.1 with h1 | h1
        · exact Or.inr (h1 ▸ List.mem_cons_self hd tl)
        · exact Or.inr (List.mem_cons_of_mem hd h1)
      · exact le_trans (le_of_lt hc) hr.2.2.1
      · intro r hrm
        rcases List.mem_cons.mp hrm with rfl | hrm
        · exact hr.2.2.1
        · exact hr.2.2.2 r hrm
    · have hstep : pickStep acc hd = acc := by
        simp [pickStep, hc]
      rw [hstep]
      have hr := ih acc h
      refine ⟨hr.1, ?_, hr.2.2.1, ?_⟩
      · rcases hr.2.1 with h1 | h1
        · exact Or.inl h1
        · exact Or.inr (List.mem_cons_of_mem hd h1)
      · intro r hrm
        rcases List.mem_cons.mp hrm with rfl | hrm
        · exact le_trans (not_lt.mp hc) hr.2.2.1
        · exact hr.2.2.2 r hrm

/-- Selecting from a single-ring result returns that ring. -/
theorem pick_single (r : Ring2) : pickLargestRing [[r]] r = r := by
  simp [pickLargestRing, pickStep]

/-- C7: applyLasso keeps exactly one ring, the one whose absolute
shoelace area is greatest over all rings of all components of the
clipping result; concretely, on object square (0,0)-(100,100) and
stroke square (50,50)-(150,150) over a 200 by 200 image, mode add
stores bounding box (0,0)-(150,150) and mode subtract stores a ring
with x_max = 100, y_max = 100 whose absolute area 7500 is below the
original 10000. -/
theorem c7_largest_ring_policy :
    (∀ (clip : ClipFn) (poly1 poly2 r0 : Ring2) (r0s : List Ring2)
       (rest : List (List Ring2)),
      clip poly1 poly2 = some ((r0 :: r0s) :: rest) →
      polygonUnion clip poly1 poly2 ∈ ((r0 :: r0s) :: rest).flatten ∧
      ∀ r ∈ ((r0 :: r0s) :: rest).flatten,
        |polygonArea r| ≤ |polygonArea (polygonUnion clip poly1 poly2)|) ∧
    ((applyLassoMask (clipModel true 50) (clipModel false 50) 0 demoObject
        strokePoints LassoMode.add demoState).objects.map AnnotationObject.bbox =
      [{ x_min := 0, y_min := 0, x_max := 150, y_max := 150 }]) ∧
    ((applyLassoMask (clipModel true 50) (clipModel false 50) 0 demoObject
        strokePoints LassoMode.subtract demoState).objects.map AnnotationObject.polygon =
      [hexagonRing]) ∧
    ((applyLassoMask (clipModel true 50) (clipModel false 50) 0 demoObject
        strokePoints LassoMode.subtract demoState).objects.map AnnotationObject.bbox =
      [{ x_min := 0, y_min := 0, x_max := 100, y_max := 100 }]) ∧
    (|polygonArea hexagonRing| = 7500 ∧ (7500 : ℚ) < 10000) := by
  have hl : strokePoints.map (fun p => (p.x, p.y)) = strokeSquareRing := by decide
  have hdp : demoObject.polygon = squareRing := rfl
  have himg : demoState.currentImage = some demoImage := rfl
  have hclipU : clipModel true 50 squareRing strokeSquareRing = some [[octagonRing]] := by
    decide
  have hclipD : clipModel false 50 squareRing strokeSquareRing = some [[hexagonRing]] := by
    decide
  have hu : polygonUnion (clipModel true 50) squareRing strokeSquareRing = octagonRing := by
    simp only [polygonUnion, hclipU]
    exact pick_single octagonRing
  have hd : polygonDifference (clipModel false 50) squareRing strokeSquareRing = hexagonRing := by
    simp only [polygonDifference, hclipD]
    exact pick_single hexagonRing
  refine ⟨?_, ?_, ?_, ?_, ?_, by norm_num⟩
  · intro clip poly1 poly2 r0 r0s rest hclip
    have hred : polygonUnion clip poly1 poly2 = pickLargestRing ((r0 :: r0s) :: rest) r0 := by
      simp only [polygonUnion, hclip]
    rw [hred, pickLargestRing]
    have h := pickFold_spec (((r0 :: r0s) :: rest).flatten) (r0, |polygonArea r0|) rfl
    have hr0mem : r0 ∈ ((r0 :: r0s) :: rest).flatten := by
      simp
    constructor
    · rcases h.2.1 with h1 | h1
      · rw [h1]
        exact hr0mem
      · exact h1
    · intro r hr
      have hb := h.2.2.2 r hr
      rw [h.1] at hb
      exact hb
  · simp only [applyLassoMask, himg]
    rw [hdp, hl, hu]
    decide
  · simp only [applyLassoMask, himg]
    rw [hdp, hl, hd]
    decide
  · simp only [applyLassoMask, himg]
    rw [hdp, hl, hd]
    decide
  · show |polygonArea hexagonRing| = 7500
    norm_num [polygonArea, hexagonRing, List.rotate]

/-- Closed witness for C7's selection clause at a one-ring clip result. -/
theorem c7_witness :
    polygonUnion (fun _ _ => some [[squareRing]]) squareRing strokeSquareRing ∈
      ([[squareRing]] : List (List Ring2)).flatten :=
  (c7_largest_ring_policy.1 (fun _ _ => some [[squareRing]]) squareRing strokeSquareRing
    squareRing [] [] rfl).1

/-! ### C3: push truncation, the 50-entry bound and redo-unreachability -/

/-- The history invariant every reachable store state satisfies: at
most 50 entries and a cursor between -1 and the last index. -/
def HistoryWF (s : AppState) : Prop :=
  s.history.length ≤ 50 ∧ -1 ≤ s.historyIndex ∧
    s.historyIndex ≤ (s.history.length : ℤ) - 1

/-- The state right after any push: cursor on the last of between 1
and 50 entries. -/
def PostPush (s : AppState) : Prop :=
  s.historyIndex = (s.history.length : ℤ) - 1 ∧
    1 ≤ s.history.length ∧ s.history.length ≤ 50

/-- One store mutation: set the objects, then push (the store pushes
the snapshot through pushHistory on every mutation). -/
def pushWith (s : AppState) (p : List AnnotationObject × ℕ) : AppState :=
  pushHistory p.2 { s with objects := p.1 }

/-- A run of consecutive mutations. -/
def pushSeq (s : AppState) (l : List (List AnnotationObject × ℕ)) : AppState :=
  l.foldl pushWith s

/-- The last n elements of a list. -/
def takeLast (n : ℕ) (l : List α) : List α :=
  l.drop (l.length - n)

theorem takeLast_length (n : ℕ) (l : List α) :
    (takeLast n l).length = min n l.length := by
  simp only [takeLast, List.length_drop]
  omega

theorem jsSliceTo_nonneg (e : ℤ) (he : 0 ≤ e) (l : List α) :
    jsSliceTo e l = l.take e.toNat := by
  simp [jsSliceTo, not_lt.mpr he]

theorem capTail_eq_takeLast (l : List α) (h : l.length ≤ 51) :
    (if 50 < l.length then l.tail else l) = takeLast 50 l := by
  by_cases hc : 50 < l.length
  · rw [if_pos hc, takeLast]
    have h1 : l.length - 50 = 1 := by omega
    rw [h1, List.drop_one]
  · rw [if_neg hc, takeLast]
    have h0 : l.length - 50 = 0 := by omega
    rw [h0, List.drop_zero]

theorem takeLast_absorb (n : ℕ) (A B : List α) :
    takeLast n (takeLast n A ++ B) = takeLast n (A ++ B) := by
  rcases le_or_lt A.length n with h | h
  · have h0 : A.length - n = 0 := by omega
    have hAA : takeLast n A = A := by
      rw [takeLast, h0, List.drop_zero]
    rw [hAA]
  · have hlen : (takeLast n A).length = n := by
      rw [takeLast_length]
      omega
    have hA : takeLast n A ++ B = (A ++ B).drop (A.length - n) := by
      rw [List.drop_append_eq_append_drop]
      have h0 : A.length - n - A.length = 0 := by omega
      rw [h0, List.drop_zero, takeLast]
    rw [takeLast, hA, List.drop_drop]
    congr 1
    rw [List.length_drop, List.length_append]
    omega

theorem takeLast_append_of_le (n : ℕ) (A B : List α) (h : n ≤ B.length) :
    takeLast n (A ++ B) = takeLast n B := by
  rw [takeLast, takeLast, List.length_append, List.drop_append_eq_append_drop]
  have hA : A.drop (A.length + B.length - n) = [] := by
    apply List.drop_eq_nil_of_le
    omega
  rw [hA, List.nil_append]
  congr 1
  omega

theorem pushHistory_history_eq (t : ℕ) (s : AppState) :
    (pushHistory t s).history =
      (if 50 < (jsSliceTo (s.historyIndex + 1) s.history ++
          [({ objects := s.objects, timestamp := t } : HistoryEntry)]).length then
        (jsSliceTo (s.historyIndex + 1) s.history ++
          [({ objects := s.objects, timestamp := t } : HistoryEntry)]).tail
      else jsSliceTo (s.historyIndex + 1) s.history ++
        [({ objects := s.objects, timestamp := t } : HistoryEntry)]) := rfl

theorem pushHistory_postPush (t : ℕ) (s : AppState) (h : PostPush s) :
    (pushHistory t s).history =
      takeLast 50 (s.history ++ [{ objects := s.objects, timestamp := t }]) ∧
    PostPush (pushHistory t s) := by
  obtain ⟨hidx, h1, h50⟩ := h
  have hsl : jsSliceTo (s.historyIndex + 1) s.history = s.history := by
    rw [hidx]
    have he : ((s.history.length : ℤ) - 1 + 1) = (s.history.length : ℤ) := by ring
    rw [he, jsSliceTo_nonneg _ (by positivity), Int.toNat_natCast, List.take_length]
  have hhist : (pushHistory t s).history =
      takeLast 50 (s.history ++ [{ objects := s.objects, timestamp := t }]) := by
    rw [pushHistory_history_eq, hsl]
    apply capTail_eq_takeLast
    rw [List.length_append, List.length_singleton]
    omega
  refine ⟨hhist, rfl, ?_, ?_⟩
  · rw [hhist, takeLast_length, List.length_append, List.length_singleton]
    omega
  · rw [hhist, takeLast_length]
    omega

theorem pushWith_postPush (s : AppState) (p : List AnnotationObject × ℕ)
    (h : PostPush s) :
    (pushWith s p).history =
      takeLast 50 (s.history ++ [{ objects := p.1, timestamp := p.2 }]) ∧
    PostPush (pushWith s p) :=
  pushHistory_postPush p.2 { s with objects := p.1 } h

theorem pushSeq_postPush (l : List (List AnnotationObject × ℕ)) :
    ∀ s : AppState, PostPush s →
      (pushSeq s l).history =
        takeLast 50 (s.history ++
          l.map (fun p => { objects := p.1, timestamp := p.2 : HistoryEntry })) ∧
      PostPush (pushSeq s l) := by
  induction l with
  | nil =>
    intro s h
    refine ⟨?_, h⟩
    rw [pushSeq, List.foldl_nil, List.map_nil, List.append_nil, takeLast]
    have h0 : s.history.length - 50 = 0 := by
      have := h.2.2
      omega
    rw [h0, List.drop_zero]
  | cons hd tl ih =>
    intro s h
    have hstep := pushWith_postPush s hd h
    have hrec := ih (pushWith s hd) hstep.2
    have hfold : pushSeq s (hd :: tl) = pushSeq (pushWith s hd) tl := by
      rw [pushSeq, List.foldl_cons, pushSeq]
    refine ⟨?_, hfold ▸ hrec.2⟩
    rw [hfold, hrec.1, hstep.1, takeLast_absorb, List.append_assoc, List.map_cons,
      List.singleton_append]

theorem pushHistory_postPush_of_wf (t : ℕ) (s : AppState)
    (h : HistoryWF s) : PostPush (pushHistory t s) := by
  obtain ⟨h50, hm1, hub⟩ := h
  have hslice : (jsSliceTo (s.historyIndex + 1) s.history).length ≤ s.history.length := by
    rw [jsSliceTo_nonneg _ (by omega), List.length_take]
    omega
  have hlen : 1 ≤ (pushHistory t s).history.length ∧
      (pushHistory t s).history.length ≤ 50 := by
    rw [pushHistory_history_eq]
    by_cases hc : 50 < (jsSliceTo (s.historyIndex + 1) s.history ++
        [({ objects := s.objects, timestamp := t } : HistoryEntry)]).length
    · rw [if_pos hc]
      rw [List.length_append, List.length_singleton] at hc
      rw [List.length_tail, List.length_append, List.length_singleton]
      omega
    · rw [if_neg hc]
      rw [List.length_append, List.length_singleton] at hc ⊢
      omega
  exact ⟨rfl, hlen.1, hlen.2⟩

theorem pushWith_wf (s : AppState) (p : List AnnotationObject × ℕ)
    (h : HistoryWF s) : PostPush (pushWith s p) :=
  pushHistory_postPush_of_wf p.2 { s with objects := p.1 } h

/-- C3: push truncates to the prefix below the cursor, appends the
snapshot, evicts from the front past 50 entries and puts the cursor at
the end; 60 consecutive mutations from any reachable state leave
exactly the snapshots of the last 50 mutations (the 10 oldest pushed
collections evicted) with cursor 49; every entry surviving a push
comes from the kept prefix or is the new snapshot, and redo() after a
push is the identity, however often it is iterated. -/
theorem c3_history_bound_and_truncation :
    (∀ (s : AppState) (l : List (List AnnotationObject × ℕ)),
      HistoryWF s → l.length = 60 →
      (pushSeq s l).history.length = 50 ∧
      (pushSeq s l).historyIndex = 49 ∧
      (pushSeq s l).history.map HistoryEntry.objects = (l.map Prod.fst).drop 10) ∧
    (∀ (s : AppState) (t : ℕ) (e : HistoryEntry),
      e ∈ (pushHistory t s).history →
      e ∈ jsSliceTo (s.historyIndex + 1) s.history ∨
      e = { objects := s.objects, timestamp := t }) ∧
    (∀ (s : AppState) (t : ℕ) (n : ℕ),
      redo^[n] (pushHistory t s) = pushHistory t s) := by
  refine ⟨?_, ?_, ?_⟩
  · intro s l hwf hlen
    cases l with
    | nil => simp at hlen
    | cons hd tl =>
      have htl : tl.length = 59 := by
        simpa using hlen
      have hp := pushWith_wf s hd hwf
      have hmain := pushSeq_postPush tl (pushWith s hd) hp
      have hfold : pushSeq s (hd :: tl) = pushSeq (pushWith s hd) tl := by
        rw [pushSeq, List.foldl_cons, pushSeq]
      have hmaplen : (tl.map (fun p =>
          { objects := p.1, timestamp := p.2 : HistoryEntry })).length = 59 := by
        rw [List.length_map, htl]
      have hhist : (pushSeq s (hd :: tl)).history =
          takeLast 50 (tl.map (fun p =>
            { objects := p.1, timestamp := p.2 : HistoryEntry })) := by
        rw [hfold, hmain.1, takeLast_append_of_le]
        omega
      have hlen50 : (pushSeq s (hd :: tl)).history.length = 50 := by
        rw [hhist, takeLast_length]
        omega
      refine ⟨hlen50, ?_, ?_⟩
      · have hpp := hmain.2
        rw [← hfold] at hpp
        rw [hpp.1, hlen50]
        norm_num
      · have h9 : (tl.map (fun p =>
            { objects := p.1, timestamp := p.2 : HistoryEntry })).length - 50 = 9 := by
          rw [hmaplen]
        rw [hhist, takeLast, h9, List.map_drop, List.map_map, List.map_cons,
          List.drop_succ_cons]
        rfl
  · intro s t e he
    have hsub : (pushHistory t s).history ⊆
        jsSliceTo (s.historyIndex + 1) s.history ++
          [{ objects := s.objects, timestamp := t }] := by
      rw [pushHistory_history_eq]
      by_cases hc : 50 < (jsSliceTo (s.historyIndex + 1) s.history ++
          [({ objects := s.objects, timestamp := t } : HistoryEntry)]).length
      · rw [if_pos hc]
        exact List.tail_subset _
      · rw [if_neg hc]
        exact List.Subset.refl _
    rcases List.mem_append.mp (hsub he) with h | h
    · exact Or.inl h
    · exact Or.inr (List.mem_singleton.mp h)
  · intro s t n
    apply Function.iterate_fixed
    rw [redo]
    have hidx : (pushHistory t s).historyIndex =
        ((pushHistory t s).history.length : ℤ) - 1 := rfl
    rw [if_neg]
    rw [hidx]
    exact lt_irrefl _

/-- Closed witness for C3: sixty empty-collection mutations from the
initial state leave 50 entries and cursor 49. -/
theorem c3_witness :
    (pushSeq initialState ((List.range 60).map (fun k => ([], k)))).history.length = 50 ∧
    (pushSeq initialState ((List.range 60).map (fun k => ([], k)))).historyIndex = 49 := by
  have h := c3_history_bound_and_truncation.1 initialState
    ((List.range 60).map (fun k => ([], k)))
    ⟨by decide, by decide, by decide⟩ (by simp)
  exact ⟨h.1, h.2.1⟩

end SamAnnotator
